import Mathlib

/-!
Shallow embedding of the bt-presence package (src/src/index.ts).

The `btPresence` class is modelled as a pure state type `BtState` whose fields
mirror the class's private fields.  Methods become functions `BtState → ... →
BtState` (plus an emitted-event list where the source calls `this.emit`).
Child processes are modelled by a pid and a killed flag; the Node event loop is
modelled by passing the relevant external events (process exit codes, stream
data events, close events) as explicit arguments.  JavaScript `undefined` is
modelled with `Option`; JS truthiness of a `number | undefined` value is
`some n` with `n ≠ 0`.
-/

namespace BtPresence

/-- `interface L2pingOptions` from the source: `count` and `timeoutSecs`.
Numbers are modelled as `Int`. -/
structure L2pingOptions where
  count : Int
  timeoutSecs : Int
deriving Repr, DecidableEq

/-- Argument to `setPingOptions`: a JS caller may pass `undefined` (or other
falsy values) in either field, so each field is an `Option Int`. -/
structure L2pingOptionsInput where
  count : Option Int
  timeoutSecs : Option Int
deriving Repr, DecidableEq

/-- `interface PingResult` from the source: `address` and `isPresent`. -/
structure PingResult where
  address : String
  isPresent : Bool
deriving Repr, DecidableEq

/-- A spawned child process as the class sees it: its pid and whether `kill()`
has been called on it (Node's `ChildProcess.killed` flag). -/
structure ChildProcess where
  pid : Nat
  killed : Bool
deriving Repr, DecidableEq

/-- The mutable fields of the `btPresence` class.

`timer` models the `timer` field holding a `NodeJS.Timer`: `none` while the
field is still `undefined` (before the first `scanForAllDevices` call);
`some pending` once assigned, where `pending` records whether the scheduled
callback is still going to fire (`clearTimeout` sets it to `false` without
making the field `undefined`).  `nextPid` is a fresh-pid counter standing in
for the operating system. -/
structure BtState where
  btDevicesToPing : List String
  btDevicesPresent : List String
  scanIntervalSecs : Int
  isL2PingAvailable : Bool
  timer : Option Bool
  reportFirstResult : Bool
  runningPings : List ChildProcess
  l2pingOptions : L2pingOptions
  nextPid : Nat
deriving Repr, DecidableEq

/-- The field initializers of the class (its constructor only calls `super()`). -/
def initialState : BtState where
  btDevicesToPing := []
  btDevicesPresent := []
  scanIntervalSecs := 15
  isL2PingAvailable := false
  timer := none
  reportFirstResult := true
  runningPings := []
  l2pingOptions := { count := 1, timeoutSecs := 5 }
  nextPid := 0

/-- lodash `_.uniq`, which keeps the first occurrence of each element and
preserves order, written with an accumulator of already-seen elements. -/
def uniqAux (seen : List String) : List String → List String
  | [] => []
  | a :: rest =>
    if a ∈ seen then uniqAux seen rest else a :: uniqAux (a :: seen) rest

/-- lodash `_.uniq`. -/
def uniq (l : List String) : List String := uniqAux [] l

/-- The events the class emits, in emission order. -/
inductive BtEvent where
  | pingResult (address : String) (isPresent : Bool)
  | present (address : String)
  | notPresent (address : String)
deriving Repr, DecidableEq

/-- `addDevices`: lower-cases the input, concatenates onto the current list and
de-duplicates.  (The `typeof != 'undefined'` guard is modelled by the argument
always being a real array.) -/
def addDevices (st : BtState) (btMacAddressArray : List String) : BtState :=
  let macsLowerCase := btMacAddressArray.map String.toLower
  { st with btDevicesToPing := uniq (st.btDevicesToPing ++ macsLowerCase) }

/-- `removeDevices`: lower-cases the input and removes every occurrence of each
of its elements (lodash `_.pullAll`) from the current list, then `_.uniq`. -/
def removeDevices (st : BtState) (btMacAddressArray : List String) : BtState :=
  let macsLowerCase := btMacAddressArray.map String.toLower
  let pulled := st.btDevicesToPing.filter (fun a => a ∉ macsLowerCase)
  { st with btDevicesToPing := uniq pulled }

/-- `getDevices`: returns the current list. -/
def getDevices (st : BtState) : List String :=
  st.btDevicesToPing

/-- `setDevices`: lower-cases and de-duplicates the input and replaces the
whole list with it. -/
def setDevices (st : BtState) (btMacAddressArray : List String) : BtState :=
  let macsLowerCase := btMacAddressArray.map String.toLower
  { st with btDevicesToPing := uniq macsLowerCase }

/-- `getPingOptions`. -/
def getPingOptions (st : BtState) : L2pingOptions :=
  st.l2pingOptions

/-- JS `x ? x : d` for a `number | undefined` value `x`: the value itself when
truthy (defined and nonzero), else the default `d`. -/
def jsOrDefault (v : Option Int) (d : Int) : Int :=
  match v with
  | some n => if n = 0 then d else n
  | none => d

/-- `setPingOptions`: builds a brand-new options struct,
`{ count: options.count ? options.count : 1,
   timeoutSecs: options.timeoutSecs ? options.timeoutSecs : 5 }`,
and stores it. -/
def setPingOptions (st : BtState) (options : L2pingOptionsInput) : BtState :=
  let newOptions : L2pingOptions :=
    { count := jsOrDefault options.count 1
      timeoutSecs := jsOrDefault options.timeoutSecs 5 }
  { st with l2pingOptions := newOptions }

/-- `getIntervalSeconds`. -/
def getIntervalSeconds (st : BtState) : Int :=
  st.scanIntervalSecs

/-- `setIntervalSeconds` (the `typeof != 'undefined'` guard modelled with
`Option`). -/
def setIntervalSeconds (st : BtState) (secs : Option Int) : BtState :=
  match secs with
  | some s => { st with scanIntervalSecs := s }
  | none => st

/-- The state effect of `pingBluetoothDevice`: spawns an `l2ping` process and
pushes it onto `runningPings`.  (The spawn arguments are built from
`l2pingOptions` and the MAC address but do not change the state; the stream
handlers it registers are modelled by `probeReports` and `onProcessClose`.) -/
def pingBluetoothDevice (st : BtState) : BtState :=
  { st with
      runningPings := st.runningPings ++ [{ pid := st.nextPid, killed := false }]
      nextPid := st.nextPid + 1 }

/-- The stream/exit events a spawned probe process can deliver. -/
inductive StreamEvent where
  | stdoutData
  | stderrData
  | closed
deriving Repr, DecidableEq

/-- Whether a stream event is a `data` event on either channel. -/
def isDataEvent : StreamEvent → Bool
  | .stdoutData => true
  | .stderrData => true
  | .closed => false

/-- The sequence of `PingResult`s that `pingBluetoothDevice`'s stream handlers
deliver to the callback for a given sequence of events from the process: each
`stdout` data event reports `isPresent = true`, each `stderr` data event
reports `isPresent = false`, and `close` reports nothing (it only untracks the
process). -/
def probeReports (macAddress : String) : List StreamEvent → List PingResult
  | [] => []
  | .stdoutData :: rest =>
    { address := macAddress, isPresent := true } :: probeReports macAddress rest
  | .stderrData :: rest =>
    { address := macAddress, isPresent := false } :: probeReports macAddress rest
  | .closed :: rest => probeReports macAddress rest

/-- The `close` handler registered by `pingBluetoothDevice`: lodash `_.remove`
drops every tracked process whose pid equals the closed process's pid. -/
def onProcessClose (st : BtState) (pid : Nat) : BtState :=
  { st with runningPings := st.runningPings.filter (fun p => p.pid ≠ pid) }

/-- `scanForAllDevices`: when the registry is non-empty, dispatches one probe
per registered device; in every case re-arms the single-shot timer. -/
def scanForAllDevices (st : BtState) : BtState :=
  let st' :=
    if st.btDevicesToPing.length ≤ 0 then st
    else st.btDevicesToPing.foldl (fun s _ => pingBluetoothDevice s) st
  { st' with timer := some true }

/-- The timer callback firing: when the re-arm is still pending, the pending
flag is consumed and `scanForAllDevices` runs; a cleared or undefined timer
runs nothing. -/
def runScheduledTick (st : BtState) : BtState :=
  match st.timer with
  | some true => scanForAllDevices { st with timer := some false }
  | _ => st

/-- Outcome of the `which l2ping` check process, delivered by the event loop. -/
inductive CheckOutcome where
  | exited (code : Option Int)
  | launchError
deriving Repr, DecidableEq

/-- `checkForL2Ping`: a launch error is thrown (fatal).  On exit,
`isL2PingAvailable` is set to `code === 0`; when available the continuation
runs, otherwise an error is thrown (fatal). -/
def checkForL2Ping (st : BtState) (outcome : CheckOutcome)
    (next : BtState → BtState) : Except String BtState :=
  match outcome with
  | .launchError => .error "Error trying to locate l2ping"
  | .exited code =>
    let st' := { st with isL2PingAvailable := code = some 0 }
    if st'.isL2PingAvailable then .ok (next st')
    else .error "dependency l2ping is not installed on the local system or is not on the PATH"

/-- The first statement of `start`: the `reportFirstResult` field is assigned
only when the argument is not `undefined`. -/
def setLatch (st : BtState) (reportFirstResultArg : Option Bool) : BtState :=
  match reportFirstResultArg with
  | some b => { st with reportFirstResult := b }
  | none => st

/-- `start`: sets the latch from the optional argument, then either scans
directly (availability already confirmed) or runs the availability check with
`scanForAllDevices` as continuation.  `outcome` is the check process's outcome,
consulted only when the check actually runs. -/
def start (st : BtState) (reportFirstResultArg : Option Bool)
    (outcome : CheckOutcome) : Except String BtState :=
  let st := setLatch st reportFirstResultArg
  if st.isL2PingAvailable then .ok (scanForAllDevices st)
  else checkForL2Ping st outcome scanForAllDevices

/-- `stop`: when the timer field has ever been assigned, clears the pending
timer callback (the field stays assigned) and calls `kill()` on every tracked
process not already killed.  The pool itself is not modified. -/
def stop (st : BtState) : BtState :=
  match st.timer with
  | none => st
  | some _ =>
    { st with
        timer := some false
        runningPings := st.runningPings.map
          (fun p => if p.killed then p else { p with killed := true }) }

/-- `onPingResult`: captures whether any device was present, emits
`ping-result`, folds the result into `btDevicesPresent` (`_.uniq/_.concat` on a
positive result, `_.pull` on a negative one), emits `present`/`not-present`
per the change-detection policy, and clears `reportFirstResult`.  Returns the
new state and the emitted events in order. -/
def onPingResult (st : BtState) (result : PingResult) : BtState × List BtEvent :=
  let devicesPresentAtLastCheck : Bool := st.btDevicesPresent.length > 0
  let newPresent : List String :=
    if result.isPresent then uniq (st.btDevicesPresent ++ [result.address])
    else st.btDevicesPresent.filter (fun a => a ≠ result.address)
  let changeEvents : List BtEvent :=
    if newPresent.length > 0 then
      if !devicesPresentAtLastCheck || st.reportFirstResult then
        [BtEvent.present result.address]
      else []
    else
      if devicesPresentAtLastCheck || st.reportFirstResult then
        [BtEvent.notPresent result.address]
      else []
  ({ st with btDevicesPresent := newPresent, reportFirstResult := false },
   BtEvent.pingResult result.address result.isPresent :: changeEvents)

end BtPresence

namespace BtPresence

theorem uniqAux_mem (l : List String) : ∀ (seen : List String) (y : String),
    y ∈ uniqAux seen l ↔ (y ∈ l ∧ y ∉ seen) := by
  induction l with
  | nil => intro seen y; simp [uniqAux]
  | cons a rest ih =>
    intro seen y
    simp only [uniqAux]
    by_cases ha : a ∈ seen
    · rw [if_pos ha, ih]
      constructor
      · rintro ⟨h1, h2⟩; exact ⟨List.mem_cons_of_mem a h1, h2⟩
      · rintro ⟨h1, h2⟩
        rcases List.mem_cons.mp h1 with h | h
        · subst h; exact absurd ha h2
        · exact ⟨h, h2⟩
    · rw [if_neg ha]
      constructor
      · intro hm
        rcases List.mem_cons.mp hm with h | h
        · subst h; exact ⟨List.mem_cons_self y rest, ha⟩
        · have hrec := (ih (a :: seen) y).mp h
          exact ⟨List.mem_cons_of_mem a hrec.1,
            fun hs => hrec.2 (List.mem_cons_of_mem a hs)⟩
      · rintro ⟨h1, h2⟩
        rcases List.mem_cons.mp h1 with h | h
        · subst h; exact List.mem_cons_self y (uniqAux (y :: seen) rest)
        · by_cases hya : y = a
          · subst hya; exact List.mem_cons_self y (uniqAux (y :: seen) rest)
          · refine List.mem_cons_of_mem a ((ih (a :: seen) y).mpr ⟨h, fun hs => ?_⟩)
            rcases List.mem_cons.mp hs with h3 | h3
            · exact hya h3
            · exact h2 h3

theorem uniq_mem (l : List String) (y : String) : y ∈ uniq l ↔ y ∈ l := by
  rw [uniq, uniqAux_mem]
  simp

theorem uniqAux_nodup (l : List String) : ∀ seen : List String, (uniqAux seen l).Nodup := by
  induction l with
  | nil => intro seen; simp [uniqAux]
  | cons a rest ih =>
    intro seen
    simp only [uniqAux]
    by_cases ha : a ∈ seen
    · rw [if_pos ha]; exact ih seen
    · rw [if_neg ha]
      refine List.nodup_cons.mpr ⟨fun hmem => ?_, ih (a :: seen)⟩
      exact ((uniqAux_mem rest (a :: seen) a).mp hmem).2 (List.mem_cons_self a seen)

theorem uniq_nodup (l : List String) : (uniq l).Nodup :=
  uniqAux_nodup l []

/-- Claim C1: with `reportFirstResult = true` and the presence set empty, the
first processed result `(addrA, isPresent = false)` emits `ping-result`
followed by `not-present addrA` even though the collective state did not
change; the set stays empty, and a second negative result for a different
device emits only its `ping-result`, no notification. -/
theorem first_result_latch (st : BtState) (addrA addrB : String)
    (hr : st.reportFirstResult = true) (hp : st.btDevicesPresent = [])
    (hab : addrA ≠ addrB) :
    (onPingResult st { address := addrA, isPresent := false }).2
      = [BtEvent.pingResult addrA false, BtEvent.notPresent addrA] ∧
    (onPingResult st { address := addrA, isPresent := false }).1.btDevicesPresent = [] ∧
    (onPingResult (onPingResult st { address := addrA, isPresent := false }).1
        { address := addrB, isPresent := false }).2
      = [BtEvent.pingResult addrB false] := by
  simp [onPingResult, hr, hp]

/-- Witness for C1 at the freshly constructed state and two distinct
addresses. -/
theorem first_result_latch_witness :
    (onPingResult initialState { address := "aa", isPresent := false }).2
      = [BtEvent.pingResult "aa" false, BtEvent.notPresent "aa"] ∧
    (onPingResult initialState
        { address := "aa", isPresent := false }).1.btDevicesPresent = [] ∧
    (onPingResult (onPingResult initialState { address := "aa", isPresent := false }).1
        { address := "bb", isPresent := false }).2
      = [BtEvent.pingResult "bb" false] :=
  first_result_latch initialState "aa" "bb" rfl rfl (by decide)

/-- Claim C2: with the latch consumed and the presence set empty, a result
`(addrA, true)` emits `ping-result` then `present addrA`; a further result
`(addrB, true)` while `addrA` remains in the set emits only its `ping-result`
(no `present`/`not-present`), and `addrA` is still in the set afterwards. -/
theorem rising_edge (st : BtState) (addrA addrB : String)
    (hr : st.reportFirstResult = false) (hp : st.btDevicesPresent = [])
    (hab : addrA ≠ addrB) :
    (onPingResult st { address := addrA, isPresent := true }).2
      = [BtEvent.pingResult addrA true, BtEvent.present addrA] ∧
    addrA ∈ (onPingResult st { address := addrA, isPresent := true }).1.btDevicesPresent ∧
    (onPingResult (onPingResult st { address := addrA, isPresent := true }).1
        { address := addrB, isPresent := true }).2
      = [BtEvent.pingResult addrB true] ∧
    addrA ∈ (onPingResult (onPingResult st { address := addrA, isPresent := true }).1
        { address := addrB, isPresent := true }).1.btDevicesPresent := by
  have hba : addrB ≠ addrA := hab.symm
  simp [onPingResult, hr, hp, uniq, uniqAux, hba]

/-- Witness for C2 at a state with the latch consumed and two distinct
addresses. -/
theorem rising_edge_witness :
    (onPingResult { initialState with reportFirstResult := false }
        { address := "aa", isPresent := true }).2
      = [BtEvent.pingResult "aa" true, BtEvent.present "aa"] ∧
    "aa" ∈ (onPingResult { initialState with reportFirstResult := false }
        { address := "aa", isPresent := true }).1.btDevicesPresent ∧
    (onPingResult (onPingResult { initialState with reportFirstResult := false }
          { address := "aa", isPresent := true }).1
        { address := "bb", isPresent := true }).2
      = [BtEvent.pingResult "bb" true] ∧
    "aa" ∈ (onPingResult (onPingResult { initialState with reportFirstResult := false }
          { address := "aa", isPresent := true }).1
        { address := "bb", isPresent := true }).1.btDevicesPresent :=
  rising_edge { initialState with reportFirstResult := false } "aa" "bb" rfl rfl (by decide)

/-- Claim C10: calling `stop` while the timer field is still undefined (no
`start` has ever scheduled a scan) changes nothing at all: the resulting state
equals the old one, so no process is killed and every field is unchanged. -/
theorem stop_before_start (st : BtState) (h : st.timer = none) : stop st = st := by
  simp [stop, h]

/-- Witness for C10 at the freshly constructed state. -/
theorem stop_before_start_witness : stop initialState = initialState :=
  stop_before_start initialState rfl

/-- Claim C8: `setDevices X` followed by `getDevices` returns a duplicate-free
list whose members are exactly the lower-cased members of `X`, and
`setDevices [A]` after `addDevices [B]` yields exactly the one-element list of
the normalized `A` (full replacement, not additive). -/
theorem setDevices_roundtrip (st st2 : BtState) (X : List String) (A B : String) :
    (∀ y, y ∈ getDevices (setDevices st X) ↔ y ∈ X.map String.toLower) ∧
    (getDevices (setDevices st X)).Nodup ∧
    getDevices (setDevices (addDevices st2 [B]) [A]) = [A.toLower] := by
  refine ⟨fun y => ?_, ?_, ?_⟩
  · rw [getDevices, setDevices]
    exact uniq_mem (X.map String.toLower) y
  · exact uniq_nodup (X.map String.toLower)
  · simp [getDevices, setDevices, addDevices, uniq, uniqAux]

/-- Claim C6: the options stored by `setPingOptions` form a wholly new struct
determined by the argument alone (independent of the previously stored
options); each field is the supplied value when truthy and the default
(`count = 1`, `timeoutSecs = 5`) when missing or falsy, as in the spec's
example `{count: 0, timeoutSecs: undefined}`. -/
theorem setPingOptions_defaults (st : BtState) (opts : L2pingOptionsInput) :
    (setPingOptions st opts).l2pingOptions
      = (setPingOptions initialState opts).l2pingOptions ∧
    (setPingOptions st opts).l2pingOptions.count = jsOrDefault opts.count 1 ∧
    (setPingOptions st opts).l2pingOptions.timeoutSecs
      = jsOrDefault opts.timeoutSecs 5 ∧
    (setPingOptions st { count := some 0, timeoutSecs := none }).l2pingOptions
      = { count := 1, timeoutSecs := 5 } := by
  refine ⟨rfl, rfl, rfl, ?_⟩
  simp [setPingOptions, jsOrDefault]

/-- C7 counterexample: supplying `count = 0` and `timeoutSecs = 0` does not
store them as-is; zero is falsy, so the stored struct is the defaults
`{count = 1, timeoutSecs = 5}`, which differs from `{count = 0,
timeoutSecs = 0}`. -/
theorem setPingOptions_zero_not_stored :
    (setPingOptions initialState
        { count := some 0, timeoutSecs := some 0 }).l2pingOptions
      = { count := 1, timeoutSecs := 5 } ∧
    ({ count := 1, timeoutSecs := 5 } : L2pingOptions)
      ≠ { count := 0, timeoutSecs := 0 } := by
  refine ⟨?_, by decide⟩
  simp [setPingOptions, jsOrDefault]

/-- Claim C7 (amended): `setPingOptions` performs no range validation and
never rejects its argument: strictly negative values are stored as-is, while
zero values, being falsy, trigger the default substitution (`1` and `5`)
instead of being stored. -/
theorem setPingOptions_no_validation (st : BtState) (n m : Int)
    (hn : n < 0) (hm : m < 0) :
    (setPingOptions st { count := some n, timeoutSecs := some m }).l2pingOptions
      = { count := n, timeoutSecs := m } ∧
    (setPingOptions st { count := some 0, timeoutSecs := some 0 }).l2pingOptions
      = { count := 1, timeoutSecs := 5 } := by
  constructor
  · have hn0 : n ≠ 0 := by omega
    have hm0 : m ≠ 0 := by omega
    simp [setPingOptions, jsOrDefault, hn0, hm0]
  · simp [setPingOptions, jsOrDefault]

/-- Witness for C7 (amended) at concrete negative values. -/
theorem setPingOptions_no_validation_witness :
    (setPingOptions initialState
        { count := some (-3), timeoutSecs := some (-1) }).l2pingOptions
      = { count := -3, timeoutSecs := -1 } ∧
    (setPingOptions initialState
        { count := some 0, timeoutSecs := some 0 }).l2pingOptions
      = { count := 1, timeoutSecs := 5 } :=
  setPingOptions_no_validation initialState (-3) (-1) (by decide) (by decide)

/-- C3 counterexample: a probe process that emits two `stdout` data events
makes the Probe Runner invoke the callback twice, so the "exactly one report,
no second report after the first classifying event" claim is false: the trace
`[stdoutData, stdoutData]` yields two reports, not one. -/
theorem probe_double_report :
    probeReports "aa" [StreamEvent.stdoutData, StreamEvent.stdoutData]
      = [{ address := "aa", isPresent := true },
         { address := "aa", isPresent := true }] ∧
    (probeReports "aa" [StreamEvent.stdoutData, StreamEvent.stdoutData]).length ≠ 1 := by
  refine ⟨rfl, by decide⟩

/-- Claim C3 (amended): the Probe Runner reports once per stream data event,
with no once-only latch: the number of reports equals the number of data
events on either channel (so a probe can report zero times or several times),
every report carries the probed address, the reports with `isPresent = true`
are exactly as numerous as the `stdout` data events, and those with
`isPresent = false` as the `stderr` data events. -/
theorem probe_reports_per_data_event (a : String) (trace : List StreamEvent) :
    (probeReports a trace).length = (trace.filter isDataEvent).length ∧
    (∀ r ∈ probeReports a trace, r.address = a) ∧
    ((probeReports a trace).filter (fun r => r.isPresent)).length
      = (trace.filter (fun e => decide (e = StreamEvent.stdoutData))).length ∧
    ((probeReports a trace).filter (fun r => !r.isPresent)).length
      = (trace.filter (fun e => decide (e = StreamEvent.stderrData))).length := by
  induction trace with
  | nil => exact ⟨rfl, by simp [probeReports], rfl, rfl⟩
  | cons e rest ih =>
    obtain ⟨ih1, ih2, ih3, ih4⟩ := ih
    cases e with
    | stdoutData =>
      refine ⟨?_, ?_, ?_, ?_⟩
      · simpa [probeReports, isDataEvent] using ih1
      · intro r hr
        rcases List.mem_cons.mp hr with h | h
        · subst h; rfl
        · exact ih2 r h
      · simpa [probeReports] using ih3
      · simpa [probeReports] using ih4
    | stderrData =>
      refine ⟨?_, ?_, ?_, ?_⟩
      · simpa [probeReports, isDataEvent] using ih1
      · intro r hr
        rcases List.mem_cons.mp hr with h | h
        · subst h; rfl
        · exact ih2 r h
      · simpa [probeReports] using ih3
      · simpa [probeReports] using ih4
    | closed =>
      refine ⟨?_, ?_, ?_, ?_⟩
      · simpa [probeReports, isDataEvent] using ih1
      · intro r hr; exact ih2 r hr
      · simpa [probeReports] using ih3
      · simpa [probeReports] using ih4


theorem foldl_ping_reportFirstResult (l : List String) : ∀ st : BtState,
    (l.foldl (fun s _ => pingBluetoothDevice s) st).reportFirstResult
      = st.reportFirstResult := by
  induction l with
  | nil => intro st; rfl
  | cons a rest ih => intro st; rw [List.foldl_cons, ih]; rfl

theorem scanForAllDevices_reportFirstResult (st : BtState) :
    (scanForAllDevices st).reportFirstResult = st.reportFirstResult := by
  rw [scanForAllDevices]
  by_cases h : st.btDevicesToPing.length ≤ 0
  · simp [h]
  · simp [h, foldl_ping_reportFirstResult]

/-- C4 counterexample: on a state whose latch was already consumed
(`reportFirstResult = false`) and with availability confirmed, calling `start`
with the argument omitted leaves the latch `false`; it is not set back to the
default `true`. -/
theorem start_omitted_latch_not_reset :
    (start { initialState with isL2PingAvailable := true, reportFirstResult := false }
        none (CheckOutcome.exited (some 0))).toOption.map BtState.reportFirstResult
      = some false ∧
    (some false : Option Bool) ≠ some true := by
  exact ⟨rfl, by decide⟩

/-- Claim C4 (amended): when the optional argument of `start` is omitted, the
one-shot latch keeps whatever value it had (it is `true` only by the field's
construction-time default); a latch consumed by a previous run stays `false`. -/
theorem start_omitted_preserves_latch (st : BtState) (o : CheckOutcome)
    (st' : BtState) (h : start st none o = Except.ok st') :
    st'.reportFirstResult = st.reportFirstResult := by
  simp only [start, setLatch] at h
  by_cases ha : st.isL2PingAvailable = true
  · rw [if_pos ha] at h
    have hst := Except.ok.inj h
    subst hst
    exact scanForAllDevices_reportFirstResult st
  · rw [if_neg ha] at h
    cases o with
    | launchError => simp [checkForL2Ping] at h
    | exited code =>
      rw [checkForL2Ping] at h
      split at h
      · have hst := Except.ok.inj h
        subst hst
        rw [scanForAllDevices_reportFirstResult]
      · simp at h

/-- Witness for C4 (amended): starting the fresh state with the argument
omitted keeps the latch at its construction value. -/
theorem start_omitted_preserves_latch_witness :
    (scanForAllDevices { initialState with isL2PingAvailable := true }).reportFirstResult
      = initialState.reportFirstResult :=
  start_omitted_preserves_latch initialState (CheckOutcome.exited (some 0))
    (scanForAllDevices { initialState with isL2PingAvailable := true }) rfl

theorem pool_close_empties : ∀ (pids : List Nat) (st : BtState),
    (∀ p ∈ st.runningPings, p.pid ∈ pids) →
    (pids.foldl onProcessClose st).runningPings = [] := by
  intro pids
  induction pids with
  | nil =>
    intro st h
    rw [List.foldl_nil]
    refine List.eq_nil_iff_forall_not_mem.mpr fun p hp => ?_
    simpa using h p hp
  | cons q qs ih =>
    intro st h
    rw [List.foldl_cons]
    apply ih
    intro p hp
    have hf : p ∈ st.runningPings.filter (fun p => p.pid ≠ q) := by
      simpa [onProcessClose] using hp
    have hm := List.mem_filter.mp hf
    have hne : p.pid ≠ q := by simpa using hm.2
    rcases List.mem_cons.mp (h p hm.1) with h1 | h1
    · exact absurd h1 hne
    · exact h1

/-- A started state tracking one live probe, used against `stop`. -/
def startedOneProbe : BtState :=
  { initialState with
      timer := some true
      runningPings := [{ pid := 1, killed := false }] }

/-- C5 counterexample: on a started system with one live probe, `stop` kills
the probe but does not empty the pool: the killed handle is still tracked when
`stop` returns (it is removed only by the process's later `close` event). -/
theorem stop_pool_not_empty :
    (stop startedOneProbe).runningPings = [{ pid := 1, killed := true }] ∧
    (stop startedOneProbe).runningPings ≠ [] := by
  exact ⟨rfl, by decide⟩

/-- Claim C5 (amended): after `stop()` on a started system (timer field
assigned), every tracked probe handle is killed and the pending scan tick is
cancelled, so the timer firing dispatches nothing; the pool however is emptied
not by `stop` itself but by the subsequent `close` event of each killed
process, after which it is empty. -/
theorem stop_kills_and_unschedules (st : BtState) (h : st.timer.isSome = true) :
    (stop st).runningPings.all ChildProcess.killed = true ∧
    (stop st).timer = some false ∧
    runScheduledTick (stop st) = stop st ∧
    (((stop st).runningPings.map ChildProcess.pid).foldl onProcessClose
        (stop st)).runningPings = [] := by
  obtain ⟨b, hb⟩ := Option.isSome_iff_exists.mp h
  have hstop : stop st =
      { st with
          timer := some false
          runningPings := st.runningPings.map
            (fun p => if p.killed then p else { p with killed := true }) } := by
    unfold stop
    rw [hb]
  refine ⟨?_, ?_, ?_, ?_⟩
  · rw [hstop]
    simp only [List.all_eq_true]
    intro p hp
    rcases List.mem_map.mp hp with ⟨q, hq, rfl⟩
    by_cases hk : q.killed
    · simp [hk]
    · simp [hk]
  · rw [hstop]
  · rw [hstop]
    rfl
  · apply pool_close_empties
    intro p hp
    exact List.mem_map_of_mem ChildProcess.pid hp

/-- A started state tracking two probes, one live and one already killed. -/
def startedTwoProbes : BtState :=
  { initialState with
      timer := some true
      runningPings := [{ pid := 1, killed := false }, { pid := 2, killed := true }] }

/-- Witness for C5 (amended) at a started state with two tracked probes. -/
theorem stop_kills_and_unschedules_witness :
    (stop startedTwoProbes).runningPings.all ChildProcess.killed = true ∧
    (stop startedTwoProbes).timer = some false ∧
    runScheduledTick (stop startedTwoProbes) = stop startedTwoProbes ∧
    (((stop startedTwoProbes).runningPings.map ChildProcess.pid).foldl onProcessClose
        (stop startedTwoProbes)).runningPings = [] :=
  stop_kills_and_unschedules startedTwoProbes rfl

/-- Claim C9: when availability is already confirmed, `start` goes straight to
scanning, with an outcome-independent result (the check is not consulted);
otherwise an exit code of 0 confirms availability and runs the continuation
that starts scanning, while any other exit code or a launch error yields the
fatal error and scanning never starts. -/
theorem start_availability_gate (st : BtState) (arg : Option Bool)
    (o : CheckOutcome) :
    (st.isL2PingAvailable = true →
      start st arg o = Except.ok (scanForAllDevices (setLatch st arg))) ∧
    (st.isL2PingAvailable = false → o = CheckOutcome.exited (some 0) →
      start st arg o = Except.ok (scanForAllDevices
        { setLatch st arg with isL2PingAvailable := true })) ∧
    (st.isL2PingAvailable = false →
      (∀ c, o = CheckOutcome.exited c → c ≠ some 0) →
      (start st arg o).isOk = false) := by
  have hsame : ∀ b : Bool, st.isL2PingAvailable = b →
      (setLatch st arg).isL2PingAvailable = b := by
    intro b hb
    cases arg <;> simpa [setLatch] using hb
  refine ⟨fun ha => ?_, fun ha h0 => ?_, fun ha hbad => ?_⟩
  · simp [start, hsame true ha]
  · subst h0
    simp [start, hsame false ha, checkForL2Ping]
  · cases o with
    | launchError =>
      simp [start, hsame false ha, checkForL2Ping, Except.isOk, Except.toBool]
    | exited c =>
      have hc : c ≠ some 0 := hbad c rfl
      simp [start, hsame false ha, checkForL2Ping, hc, Except.isOk, Except.toBool]

/-- Witness for C9 covering all three branches at concrete states and
outcomes. -/
theorem start_availability_gate_witness :
    start { initialState with isL2PingAvailable := true } none CheckOutcome.launchError
      = Except.ok (scanForAllDevices
          (setLatch { initialState with isL2PingAvailable := true } none)) ∧
    start initialState (some false) (CheckOutcome.exited (some 0))
      = Except.ok (scanForAllDevices
          { setLatch initialState (some false) with isL2PingAvailable := true }) ∧
    (start initialState none (CheckOutcome.exited (some 1))).isOk = false :=
  ⟨(start_availability_gate { initialState with isL2PingAvailable := true } none
      CheckOutcome.launchError).1 rfl,
   (start_availability_gate initialState (some false)
      (CheckOutcome.exited (some 0))).2.1 rfl rfl,
   (start_availability_gate initialState none (CheckOutcome.exited (some 1))).2.2 rfl
     (fun c hc => by injection hc with h; rw [← h]; decide)⟩

end BtPresence
